import Mathlib

/-!
Verification of behavioural properties of the GUFY desktop application
(a PyQt front end that drives the yt visualization library).

The Python modules are shallowly embedded: the parameter store becomes a
function from string keys to values, the worker objects become explicit
records, exceptions become Except values, and the cooperative cancellation
protocol becomes a step function over a list of named checkpoints.
Python numbers are modelled by rationals, Python strings by Lean strings
(or lists of characters where character-level reasoning is needed).
-/

namespace GUFY

/-! ## The parameter store (GUFY keeps all state in one dict of
heterogeneous values; simgui_modules keeps numbers and strings in it) -/

/-- A value stored in the parameter dictionary: a Python number (modelled by
a rational) or a Python string. -/
inductive PyVal where
  | num : ℚ → PyVal
  | str : String → PyVal
deriving DecidableEq

/-- `Param_Dict[k] = v` on a store modelled as a total function. -/
def setKey (d : String → PyVal) (k : String) (v : PyVal) : String → PyVal :=
  fun q => if q = k then v else d q

/-- Write the values `vs` to the keys `ks` in order, as the loop
`for i in range(3): Param_Dict[keys[i]] = values[i]` does. -/
def writeBack (d : String → PyVal) : List String → List PyVal → (String → PyVal)
  | k :: ks, v :: vs => writeBack (setKey d k v) ks vs
  | _, _ => d

/-! ## utils.shuffleCoords (utils.py lines 553-579) -/

/-- One cyclic left shuffle, `values.append(values.pop(0))`:
`[a, b, c]` becomes `[b, c, a]`. -/
def rotOnce {α : Type} (xs : List α) : List α := xs.drop 1 ++ xs.take 1

/-- The keys of the start coordinate triple. -/
def startKeys : List String := ["XLStart", "YLStart", "ZLStart"]

/-- The keys of the end coordinate triple. -/
def endKeys : List String := ["XLEnd", "YLEnd", "ZLEnd"]

/-- `utils.shuffleCoords`: reads the two coordinate triples, rotates both
twice when `NAxis == "x"`, once when `NAxis == "y"`, not at all for `"z"`
(and for any other value, after logging an error), then writes the values
back to the same keys. -/
def shuffleCoords (d : String → PyVal) : String → PyVal :=
  let svalues := startKeys.map d
  let evalues := endKeys.map d
  let p : List PyVal × List PyVal :=
    if d "NAxis" = PyVal.str "x" then
      (rotOnce (rotOnce svalues), rotOnce (rotOnce evalues))
    else if d "NAxis" = PyVal.str "y" then
      (rotOnce svalues, rotOnce evalues)
    else
      (svalues, evalues)
  writeBack (writeBack d startKeys p.1) endKeys p.2

/-! ## utils.mean (utils.py lines 89-93) -/

/-- `utils.mean`: `0` for the empty list, otherwise `sum(xs)/len(xs)`. -/
def mean (xs : List ℚ) : ℚ :=
  if xs.length = 0 then 0 else xs.sum / xs.length

/-! ## configureGUI checkbox defaults (configureGUI.py lines 196-202 and
305-309) -/

/-- `ConfigDialog.getStateInput`: a checked checkbox is stored as the
string `"yes"`, an unchecked one as `"no"`. -/
def getStateInput (state : Bool) : String := if state then "yes" else "no"

/-- `str.lower()` for the ASCII configuration strings involved here. -/
def pyToLower (s : String) : String := ⟨s.data.map Char.toLower⟩

/-- The boolean states of the standard INI parser
(`configparser.ConfigParser.BOOLEAN_STATES`), consulted on the lowercased
value by `getboolean`; an unknown value raises, modelled by `none`. -/
def getboolean (s : String) : Option Bool :=
  if pyToLower s = "1" ∨ pyToLower s = "yes" ∨ pyToLower s = "true" ∨
      pyToLower s = "on" then some true
  else if pyToLower s = "0" ∨ pyToLower s = "no" ∨ pyToLower s = "false" ∨
      pyToLower s = "off" then some false
  else none

/-! ## Workers and cooperative cancellation
(threading.py `WorkerBase`, utils.py `emitStatus`/`emitMultiStatus`) -/

/-- The mutable state of a `WorkerBase` object: the polled `_isRunning`
flag and the `oldMessage` remembered by the last successful checkpoint. -/
structure Worker where
  isRunning : Bool
  oldMessage : String
deriving DecidableEq

/-- `WorkerBase.__init__`: `_isRunning = True`, `oldMessage = "Starting up"`. -/
def initWorker : Worker := ⟨true, "Starting up"⟩

/-- The argument of the `WorkingException` raised by `emitStatus`
(the line-continuation whitespace of the source f-string is normalised to
one space). -/
def cancelMessage (w : Worker) : String :=
  "You cancelled the plotting process while <b>" ++
    pyToLower w.oldMessage ++ ".</b>"

/-- `utils.emitStatus` on a live worker object: if `_isRunning` is still
true the message is emitted as a progress update and remembered, otherwise
a `WorkingException` is raised (modelled by `Except.error`). -/
def emitStatus (w : Worker) (message : String) : Except String (Worker × String) :=
  if w.isRunning then Except.ok ({ w with oldMessage := message }, message)
  else Except.error (cancelMessage w)

/-- The argument of the `WorkingException` raised by `emitMultiStatus`. -/
def multiCancelMessage (currentNumber plotNumber : Nat) : String :=
  "You cancelled the plotting process while <b>producing plot " ++
    toString currentNumber ++ "/" ++ toString plotNumber ++ "</b>."

/-- `utils.emitMultiStatus` on a live worker object: emit a multi-progress
update while `_isRunning` holds, otherwise raise `WorkingException`. -/
def emitMultiStatus (w : Worker) (currentNumber plotNumber : Nat) :
    Except String Worker :=
  if w.isRunning then Except.ok w
  else Except.error (multiCancelMessage currentNumber plotNumber)

/-- `ProgressDialog.stopProcess` (threading.py lines 143-150): the UI thread
clears the polled flag; the model lets this happen between two checkpoint
calls. `cancelBefore = some c` means the flag is cleared before the
checkpoint with index `c` (and stays cleared); `none` means the user never
cancels. -/
def applyCancel (cancelBefore : Option Nat) (k : Nat) (w : Worker) : Worker :=
  match cancelBefore with
  | some c => if c ≤ k then { w with isRunning := false } else w
  | none => w

/-- Run a worker through the named checkpoints of an evaluation, calling
`emitStatus` at each one; between checkpoints the cancellation request may
land. Returns the emitted progress updates and the `WorkingException`
message if one was raised. -/
def runFrom (w : Worker) (names : List String) (k : Nat)
    (cancelBefore : Option Nat) : List String × Option String :=
  match names with
  | [] => ([], none)
  | n :: rest =>
    let w1 := applyCancel cancelBefore k w
    match emitStatus w1 n with
    | Except.ok (w2, msg) =>
      let r := runFrom w2 rest (k + 1) cancelBefore
      (msg :: r.1, r.2)
    | Except.error e => ([], some e)

/-- A whole evaluation run: start with a fresh worker at checkpoint 0. -/
def runCheckpoints (names : List String) (cancelBefore : Option Nat) :
    List String × Option String :=
  runFrom initWorker names 0 cancelBefore

/-! ## The worker plot entry points (threading.py lines 172-185/199-212) -/

/-- What the worker entry point observes of `GUILogger` and of
`traceback.print_exc`. -/
inductive LogEvent where
  | errorLog : String → LogEvent
  | exceptionLog : String → LogEvent
  | tracebackPrint : LogEvent
  | noticeLog : String → LogEvent
deriving DecidableEq

/-- The outcome of the `evaluateSingle`/`evaluateMultiple` call made
inside the `try` block, together with the worker state at that point:
a normal return, a `WorkingException` (raised by a checkpoint), or any
other exception (its type name and message). -/
inductive EvalOutcome where
  | success : Worker → EvalOutcome
  | workingExc : Worker → String → EvalOutcome
  | otherExc : Worker → String → String → EvalOutcome
deriving DecidableEq

/-- What one call of `PlotSingleWorker.plot` (and identically
`PlotMultipleWorker.plot`) does after the evaluation call returns or
raises: the logged events, every `finished.emit` argument, whether an
exception escapes the slot, and the final `_isRunning` flag. -/
structure PlotRun where
  logs : List LogEvent
  finishedEmits : List Bool
  escaped : Option String
  finalRunning : Bool
deriving DecidableEq

/-- The `try/except/except` wrapper of the worker plot entry points:
`WorkingException` is logged via `GUILogger.error(str(e.args[0]))`; any
other exception gets its traceback printed, is logged to the GUI log pane
and clears `_isRunning`; in every case `finished.emit(self._isRunning)`
runs and nothing is re-raised. -/
def workerPlot (outcome : EvalOutcome) : PlotRun :=
  match outcome with
  | EvalOutcome.success w =>
    ⟨[], [w.isRunning], none, w.isRunning⟩
  | EvalOutcome.workingExc w msg =>
    ⟨[LogEvent.errorLog msg], [w.isRunning], none, w.isRunning⟩
  | EvalOutcome.otherExc _ ty msg =>
    ⟨[LogEvent.tracebackPrint,
      LogEvent.exceptionLog ("A yt-internal exception occured:<br><b><font color=\"DarkRed\">"
        ++ ty ++ ":</font><br>" ++ msg ++ "</b>"),
      LogEvent.noticeLog "I\x27ve printed the traceback for you."],
     [false], none, false⟩

/-! ## Loading a file or a series (GUFY.py `testValidFile` lines 208-238,
`loadSeries` lines 318-350) -/

/-- What `yt.load` does for a given name: succeed, raise the specific
`YTOutputNotIdentified`, or raise some other exception. -/
inductive LoadOutcome where
  | ok : LoadOutcome
  | notIdentified : LoadOutcome
  | otherError : String → LoadOutcome
deriving DecidableEq

/-- The result of a load attempt loop: a successful load of the given
name, an attempt ended by the user cancelling (only a warning is logged),
or an exception propagating out uncaught. -/
inductive LoadResult where
  | loaded : String → LoadResult
  | cancelled : LoadResult
  | raised : String → LoadResult
deriving DecidableEq

/-- `GUFYMainWindow.testValidFile`, with the successive file-dialog
answers as an explicit list (an exhausted list behaves like a cancelled
dialog, which returns the empty string): an empty filename logs a warning
and stops; `YTOutputNotIdentified` alerts the user and asks again; any
other exception is not caught by this path; a successful `yt.load` ends
the loop. -/
def testValidFile (load : String → LoadOutcome) : List String → LoadResult
  | [] => LoadResult.cancelled
  | f :: rest =>
    if f = "" then LoadResult.cancelled
    else
      match load f with
      | LoadOutcome.ok => LoadResult.loaded f
      | LoadOutcome.notIdentified => testValidFile load rest
      | LoadOutcome.otherError e => LoadResult.raised e

/-- `GUFYMainWindow.loadSeries`, with the successive `askSeriesName`
answers as an explicit list (`none` models the user pressing cancel,
after which only warnings are logged): `YTOutputNotIdentified` alerts the
user and recurses to ask for another name; other exceptions are not
caught. -/
def loadSeries (load : String → LoadOutcome) : List (Option String) → LoadResult
  | [] => LoadResult.cancelled
  | none :: _ => LoadResult.cancelled
  | some name :: rest =>
    match load name with
    | LoadOutcome.ok => LoadResult.loaded name
    | LoadOutcome.notIdentified => loadSeries load rest
    | LoadOutcome.otherError e => LoadResult.raised e

/-! ## Series evaluation (threading.py `evaluateMultiple` lines 248-273,
plotWindow.py `saveFigure` lines 372-373) -/

/-- The file name passed to `PlotWindow.saveFigure` for one movie frame:
`f"{directory}/{mode}plot_{i+1}"`. -/
def frameName (directory mode : String) (i : Nat) : String :=
  directory ++ "/" ++ mode ++ "plot_" ++ toString (i + 1)

/-- The loop body of `evaluateMultiple`: `j` walks over the dataset
indices while the auxiliary counter `i` (incremented once per iteration)
selects, via `i % onlyEvery == 0`, the iterations that produce a plot and
— when a movie is requested — save a frame. Returns the plotted dataset
indices and the saved file names, in production order. -/
def evalMultiGo (onlyEvery : Nat) (makeMovie : Bool) (directory mode : String) :
    List Nat → Nat → List Nat × List String
  | [], _ => ([], [])
  | j :: rest, i =>
    let r := evalMultiGo onlyEvery makeMovie directory mode rest (i + 1)
    if i % onlyEvery = 0 then
      (j :: r.1, (if makeMovie then [frameName directory mode i] else []) ++ r.2)
    else r

/-- `threading.evaluateMultiple` (the artifact-producing part): iterate
`j` over `range(Length)` with `i` starting at 0. -/
def evaluateMultiple (seriesLength onlyEvery : Nat) (makeMovie : Bool)
    (directory mode : String) : List Nat × List String :=
  evalMultiGo onlyEvery makeMovie directory mode (List.range seriesLength) 0

/-! ## A single plot evaluation against the plot window
(threading.py `evaluateSingle`, plots.py `SlicePlot`/`finallyDrawPlot`,
plotWindow.py `startPlot`/`prepareFigure`/`makePlot`) -/

/-- One atomic step of a single slice-plot evaluation, as seen by the
plot window: a named `emitStatus` checkpoint, or one of the window
mutations performed between checkpoints. -/
inductive PlotStep where
  | checkpoint : String → PlotStep
  | setPlotRef : PlotStep
  | clearFigure : PlotStep
  | renderPlot : PlotStep
  | drawCanvas : PlotStep
deriving DecidableEq

/-- The state of the current `PlotWindow` relevant here: the `self.plot`
reference, what the matplotlib figure holds, and what the canvas shows
(plot objects identified by numbers; `none` is a cleared figure). -/
structure PlotWindowState where
  plotRef : Option Nat
  figure : Option Nat
  canvas : Option Nat
deriving DecidableEq

/-- The step sequence of one axis-aligned slice-plot evaluation, read off
`evaluateSingle` → `SlicePlot` → `finallyDrawPlot` → `startPlot` →
`makePlot` (mode `"Slice"`, 2D): the external-library work between
checkpoints is omitted, the window mutations are kept in source order
(`self.plot = plot`; `prepareFigure`, which clears the figure;
`plot._setup_plots()`, which renders into the figure; `canvas.draw()`). -/
def singleSlicePlotSteps : List PlotStep :=
  [PlotStep.checkpoint "Creating the initial slice plot",
   PlotStep.checkpoint "Setting slice plot modifications",
   PlotStep.checkpoint "Annotating the slice plot",
   PlotStep.checkpoint "Starting the plot",
   PlotStep.setPlotRef,
   PlotStep.clearFigure,
   PlotStep.checkpoint "Drawing plot onto the canvas",
   PlotStep.renderPlot,
   PlotStep.drawCanvas,
   PlotStep.checkpoint "Finishing"]

/-- Execute the steps of a plot evaluation: checkpoints go through
`emitStatus` (after the cancellation request had a chance to land, as in
`runFrom`), and a raised `WorkingException` aborts the remaining steps,
leaving the window as it is at that moment. -/
def execSteps (newPlot : Nat) (cancelBefore : Option Nat) :
    List PlotStep → PlotWindowState → Worker → Nat →
      PlotWindowState × Except String Worker
  | [], win, w, _ => (win, Except.ok w)
  | PlotStep.checkpoint n :: rest, win, w, cidx =>
    match emitStatus (applyCancel cancelBefore cidx w) n with
    | Except.ok (w2, _) => execSteps newPlot cancelBefore rest win w2 (cidx + 1)
    | Except.error e => (win, Except.error e)
  | PlotStep.setPlotRef :: rest, win, w, cidx =>
    execSteps newPlot cancelBefore rest { win with plotRef := some newPlot } w cidx
  | PlotStep.clearFigure :: rest, win, w, cidx =>
    execSteps newPlot cancelBefore rest { win with figure := none } w cidx
  | PlotStep.renderPlot :: rest, win, w, cidx =>
    execSteps newPlot cancelBefore rest { win with figure := some newPlot } w cidx
  | PlotStep.drawCanvas :: rest, win, w, cidx =>
    execSteps newPlot cancelBefore rest { win with canvas := win.figure } w cidx

/-- One whole single slice-plot evaluation run against the current plot
window, with a fresh worker. -/
def runSingleSlicePlot (win : PlotWindowState) (newPlot : Nat)
    (cancelBefore : Option Nat) : PlotWindowState × Except String Worker :=
  execSteps newPlot cancelBefore singleSlicePlotSteps win initWorker 0

/-! ## Writing a plot to a script (scriptWriter.py `writePlotToScript`
lines 151-183). Python strings are modelled as lists of characters so the
splitting involved can be reasoned about character by character. -/

/-- `str.strip()`: remove leading and trailing whitespace. -/
def pyStripChars (l : List Char) : List Char :=
  ((l.dropWhile Char.isWhitespace).reverse.dropWhile Char.isWhitespace).reverse

/-- `line.strip().startswith("#")`: the test used to drop full-line
comments. -/
def isCommentLine (l : List Char) : Bool :=
  ['#'].isPrefixOf (pyStripChars l)

/-- `line.isspace()`: non-empty and all whitespace. -/
def pyIsSpace (l : List Char) : Bool :=
  !l.isEmpty && l.all Char.isWhitespace

/-- Split a string at the first occurrence of the separator `sep`,
returning the parts before and after it (`none` when `sep` does not occur;
the empty separator is invalid in Python and yields `none`). This is the
building block of `str.split(sep)`. -/
def splitFirst (sep : List Char) : List Char → Option (List Char × List Char)
  | [] => none
  | c :: rest =>
    if sep.isEmpty then none
    else if sep.isPrefixOf (c :: rest) then
      some ([], (c :: rest).drop sep.length)
    else
      (splitFirst sep rest).map (fun p => (c :: p.1, p.2))

/-- `line.split(sep)[0]`: the part of the line before the first occurrence
of `sep`, or the whole line when `sep` does not occur. -/
def pySplitHead (sep l : List Char) : List Char :=
  match splitFirst sep l with
  | some (b, _) => b
  | none => l

/-- Iterated splitting with explicit fuel (each step removes at least one
character, so `l.length + 1` steps always suffice). -/
def pySplitFuel (sep : List Char) : Nat → List Char → List (List Char)
  | 0, l => [l]
  | fuel + 1, l =>
    match splitFirst sep l with
    | none => [l]
    | some (b, a) => b :: pySplitFuel sep fuel a

/-- `text.split(sep)` for a non-empty separator. -/
def pySplit (sep l : List Char) : List (List Char) :=
  pySplitFuel sep (l.length + 1) l

/-- The line separator used by `text.split("\n")`. -/
def newlineSep : List Char := ['\n']

/-- The inline-comment separator `"  # "`. -/
def inlineSep : List Char := "  # ".data

/-- The coding header line inserted at position 0 after removing the
full-line comments. -/
def codingHeader : List Char := "# -*- coding: utf-8 -*-".data

/-- The marker that opens a `Note:` docstring block. -/
def noteMarker : List Char := "\"\"\"\nNote:".data

/-- The triple quote closing a `Note:` docstring block. -/
def tripleQuote : List Char := "\"\"\"".data

/-- The `".py"` script suffix. -/
def pyExt : List Char := ".py".data

/-- Remove every line whose stripped form starts with `#`, then insert the
coding header at position 0. -/
def removeFullLineComments (lines : List (List Char)) : List (List Char) :=
  codingHeader :: lines.filter (fun l => !isCommentLine l)

/-- The contribution of one line to the rebuilt text: lines containing `#`
are cut at the first `"  # "`, whitespace-only lines contribute nothing,
and every line is followed by a newline. -/
def lineContribution (l : List Char) : List Char :=
  (if '#' ∈ l then pySplitHead inlineSep l
   else if pyIsSpace l then []
   else l) ++ ['\n']

/-- Rebuild the text from the comment-filtered lines, stripping inline
comments. -/
def stripInlineComments (lines : List (List Char)) : List Char :=
  (lines.map lineContribution).flatten

/-- Remove all `Note:` docstring blocks: split at every `"""\nNote:`
marker and drop, in every later block, everything up to the next `"""`. -/
def removeNoteBlocks (text : List Char) : List Char :=
  match pySplit noteMarker text with
  | [] => []
  | b :: bs =>
    b ++ (bs.map (fun blk => ((pySplit tripleQuote blk).drop 1).flatten)).flatten

/-- The whole no-comments transformation of `writePlotToScript`. -/
def noCommentsTransform (text : List Char) : List Char :=
  removeNoteBlocks (stripInlineComments (removeFullLineComments
    (pySplit newlineSep text)))

/-- `scriptWriter.writePlotToScript`: append `".py"` when the chosen
filename lacks it, then write the templated script text, transformed when
the no-comments option is set. The templated text produced by
`constructCompleteString` from the parameter store is taken as the input
`text`. Returns the written filename and the written text. -/
def writePlotToScript (text filename : List Char) (noComments : Bool) :
    List Char × List Char :=
  let filename2 := if pyExt.isSuffixOf filename then filename else filename ++ pyExt
  (filename2, if noComments then noCommentsTransform text else text)

/-! ## Theorems -/

/-- If the user never cancels, every checkpoint emits its progress update
and the run completes. -/
theorem runFrom_no_cancel : ∀ (names : List String) (k : Nat) (w : Worker),
    w.isRunning = true → runFrom w names k none = (names, none) := by
  intro names
  induction names with
  | nil => intro k w hw; rfl
  | cons n rest ih =>
    intro k w hw
    have h2 := ih (k + 1) ⟨true, n⟩ rfl
    simp [runFrom, applyCancel, emitStatus, hw, h2]

/-- Behaviour of a run under a cancellation request landing before
checkpoint `c`: checkpoints before `c` emit normally, checkpoint `c`
raises, checkpoints numbered from `k` onwards. -/
theorem runFrom_cancel : ∀ (names : List String) (k c : Nat) (w : Worker),
    w.isRunning = true →
    (k + names.length ≤ c → runFrom w names k (some c) = (names, none)) ∧
    (k ≤ c → c < k + names.length →
      (runFrom w names k (some c)).1 = names.take (c - k) ∧
      (runFrom w names k (some c)).2.isSome = true) := by
  intro names
  induction names with
  | nil =>
    intro k c w _
    exact ⟨fun _ => rfl, fun h1 h2 => by simp at h2; omega⟩
  | cons n rest ih =>
    intro k c w hw
    by_cases hck : c ≤ k
    · constructor
      · intro hle; simp at hle; omega
      · intro h1 h2
        have hck0 : c - k = 0 := by omega
        have ha : applyCancel (some c) k w = { w with isRunning := false } := by
          simp [applyCancel, hck]
        simp [runFrom, ha, emitStatus, hck0]
    · have ih2 := ih (k + 1) c ⟨true, n⟩ rfl
      have hstep : runFrom w (n :: rest) k (some c) =
          (n :: (runFrom ⟨true, n⟩ rest (k + 1) (some c)).1,
           (runFrom ⟨true, n⟩ rest (k + 1) (some c)).2) := by
        simp [runFrom, applyCancel, hck, emitStatus, hw]
      constructor
      · intro hle
        have hle2 : k + 1 + rest.length ≤ c := by simp at hle; omega
        rw [hstep, ih2.1 hle2]
      · intro h1 h2
        have h2b : c < k + 1 + rest.length := by simp at h2; omega
        by_cases hkc : k + 1 ≤ c
        · have h3 := ih2.2 hkc h2b
          rw [hstep]
          refine ⟨?_, by simpa using h3.2⟩
          have hsub : c - k = (c - (k + 1)) + 1 := by omega
          simp [hsub, h3.1]
        · omega

/-- Claim C1: cancellation is cooperative and only takes effect at named
checkpoints. Without a cancellation request (or with one landing after the
last checkpoint) every checkpoint of `runCheckpoints` emits a progress
update and the run completes; a request landing before checkpoint `c`
lets the evaluation continue uninterrupted through the first `c`
checkpoints (which all emit) and makes `emitStatus` raise the
`WorkingException` exactly at checkpoint `c`. Moreover `emitStatus` and
`emitMultiStatus` emit on a running worker and raise exactly when the
`_isRunning` flag has been cleared. -/
theorem cancellation_at_checkpoints (names : List String) (cancelBefore : Option Nat) :
    (cancelBefore = none → runCheckpoints names cancelBefore = (names, none)) ∧
    (∀ c, cancelBefore = some c → names.length ≤ c →
      runCheckpoints names cancelBefore = (names, none)) ∧
    (∀ c, cancelBefore = some c → c < names.length →
      (runCheckpoints names cancelBefore).1 = names.take c ∧
      (runCheckpoints names cancelBefore).2.isSome = true) ∧
    (∀ (w : Worker) (m : String), w.isRunning = true →
      emitStatus w m = Except.ok ({ w with oldMessage := m }, m)) ∧
    (∀ (w : Worker) (m : String), w.isRunning = false →
      emitStatus w m = Except.error (cancelMessage w)) ∧
    (∀ (w : Worker) (i p : Nat), w.isRunning = true →
      emitMultiStatus w i p = Except.ok w) ∧
    (∀ (w : Worker) (i p : Nat), w.isRunning = false →
      emitMultiStatus w i p = Except.error (multiCancelMessage i p)) := by
  refine ⟨?_, ?_, ?_, ?_, ?_, ?_, ?_⟩
  · rintro rfl
    exact runFrom_no_cancel names 0 initWorker rfl
  · rintro c rfl hc
    exact (runFrom_cancel names 0 c initWorker rfl).1 (by omega)
  · rintro c rfl hc
    have h := (runFrom_cancel names 0 c initWorker rfl).2 (by omega) (by omega)
    simpa using h
  · intro w m hw; simp [emitStatus, hw]
  · intro w m hw; simp [emitStatus, hw]
  · intro w i p hw; simp [emitMultiStatus, hw]
  · intro w i p hw; simp [emitMultiStatus, hw]

/-- Witness for C1: three checkpoints, cancellation landing before
checkpoint 1 — exactly the first checkpoint emitted, then the exception. -/
theorem cancellation_at_checkpoints_witness :
    (runCheckpoints ["a", "b", "c"] (some 1)).1 = ["a"] ∧
    (runCheckpoints ["a", "b", "c"] (some 1)).2.isSome = true := by
  have h := (cancellation_at_checkpoints ["a", "b", "c"] (some 1)).2.2.1 1 rfl
    (by decide)
  simpa using h

/-- When `splitFirst` finds the separator, the string decomposes into the
part before it, the separator, and the part after it. -/
theorem splitFirst_reconstruct (sep : List Char) :
    ∀ l b a : List Char, splitFirst sep l = some (b, a) → l = b ++ sep ++ a := by
  intro l
  induction l with
  | nil => intro b a h; simp [splitFirst] at h
  | cons c rest ih =>
    intro b a h
    by_cases hsep : sep.isEmpty = true
    · simp [splitFirst, hsep] at h
    · by_cases hpre : sep.isPrefixOf (c :: rest) = true
      · simp [splitFirst, hsep, hpre] at h
        obtain ⟨t, ht⟩ := List.isPrefixOf_iff_prefix.mp hpre
        rw [h.1, ← h.2, ← ht]
        simp [List.drop_left]
      · simp [splitFirst, hsep, hpre, Option.map_eq_some'] at h
        obtain ⟨p, hrec, heq⟩ := h
        have hr := ih p a hrec
        rw [← heq]
        simpa using hr

/-- The decomposition of `splitFirst` is at the first occurrence: any
other decomposition has at least as long a prefix. -/
theorem splitFirst_minimal (sep : List Char) :
    ∀ l b a b2 a2 : List Char, splitFirst sep l = some (b, a) →
      l = b2 ++ sep ++ a2 → b.length ≤ b2.length := by
  intro l
  induction l with
  | nil => intro b a b2 a2 h _; simp [splitFirst] at h
  | cons c rest ih =>
    intro b a b2 a2 h hl
    by_cases hsep : sep.isEmpty = true
    · simp [splitFirst, hsep] at h
    · by_cases hpre : sep.isPrefixOf (c :: rest) = true
      · simp [splitFirst, hsep, hpre] at h
        rw [h.1]
        simp
      · simp [splitFirst, hsep, hpre, Option.map_eq_some'] at h
        obtain ⟨p, hrec, heq⟩ := h
        cases b2 with
        | nil =>
          exfalso
          apply hpre
          rw [ List.isPrefixOf_iff_prefix]
          exact ⟨a2, by simpa using hl.symm⟩
        | cons c2 b2t =>
          have hc : c = c2 ∧ rest = b2t ++ sep ++ a2 := by simpa using hl
          have hrl := ih p a b2t a2 hrec hc.2
          rw [← heq]
          simpa using hrl

/-- Claim C6: `writePlotToScript` writes the templated script text to the
chosen filename, appending the `".py"` suffix exactly when it is missing;
with the no-comments option the written text is the pipeline removing the
full-line comments (every surviving line is the inserted coding header or
a non-comment line), cutting each line containing `#` at its first
`"  # "`, and removing the `Note:` docstring blocks. -/
theorem writePlotToScript_spec (text filename : List Char) (noComments : Bool) :
    pyExt <:+ (writePlotToScript text filename noComments).1 ∧
    (pyExt <:+ filename →
      (writePlotToScript text filename noComments).1 = filename) ∧
    (¬ pyExt <:+ filename →
      (writePlotToScript text filename noComments).1 = filename ++ pyExt) ∧
    (noComments = false → (writePlotToScript text filename noComments).2 = text) ∧
    (noComments = true →
      (writePlotToScript text filename noComments).2 =
        removeNoteBlocks (stripInlineComments (removeFullLineComments
          (pySplit newlineSep text)))) ∧
    (∀ l ∈ removeFullLineComments (pySplit newlineSep text),
      l = codingHeader ∨ isCommentLine l = false) ∧
    (∀ l b a : List Char, splitFirst inlineSep l = some (b, a) →
      lineContribution l = b ++ ['\n'] ∧
      l = b ++ inlineSep ++ a ∧
      ∀ b2 a2 : List Char, l = b2 ++ inlineSep ++ a2 → b.length ≤ b2.length) ∧
    removeNoteBlocks ("line1\n\"\"\"\nNote:\n blah\n\"\"\"\nline2".data) =
      ("line1\n\nline2").data := by
  refine ⟨?_, ?_, ?_, ?_, ?_, ?_, ?_, ?_⟩
  · by_cases hsuf : pyExt.isSuffixOf filename = true
    · simp only [writePlotToScript, hsuf, if_true]
      exact List.isSuffixOf_iff_suffix.mp hsuf
    · simp only [writePlotToScript, hsuf, if_false]
      exact List.suffix_append filename pyExt
  · intro hs
    have hsuf : pyExt.isSuffixOf filename = true :=
      List.isSuffixOf_iff_suffix.mpr hs
    simp [writePlotToScript, hsuf]
  · intro hs
    have hsuf : ¬ pyExt.isSuffixOf filename = true :=
      fun hh => hs (List.isSuffixOf_iff_suffix.mp hh)
    simp [writePlotToScript, hsuf]
  · rintro rfl; simp [writePlotToScript]
  · rintro rfl; simp [writePlotToScript, noCommentsTransform]
  · intro l hl
    rcases List.mem_cons.mp hl with h | h
    · exact Or.inl h
    · refine Or.inr ?_
      have := List.of_mem_filter h
      simpa using this
  · intro l b a h
    have hrec := splitFirst_reconstruct inlineSep l b a h
    have hmem : '#' ∈ l := by
      rw [hrec]
      exact List.mem_append.mpr (Or.inl (List.mem_append.mpr (Or.inr (by decide))))
    refine ⟨?_, hrec, fun b2 a2 h2 => splitFirst_minimal inlineSep l b a b2 a2 h h2⟩
    simp [lineContribution, hmem, pySplitHead, h]
  · decide

/-- Witness for C6 on concrete inputs: a filename without the suffix gets
it appended, and with comments kept the text is written unchanged. -/
theorem writePlotToScript_spec_witness :
    ¬ (pyExt <:+ ("script".data)) ∧
    (writePlotToScript ("x".data) ("script".data) false).1 = ("script.py").data ∧
    (writePlotToScript ("x".data) ("script".data) false).2 = "x".data := by
  have h := writePlotToScript_spec ("x".data) ("script".data) false
  refine ⟨by decide, ?_, h.2.2.2.1 rfl⟩
  have h3 := h.2.2.1 (by decide)
  rw [h3]; decide

/-- Counterexample to claim C4: with a previous plot (number 0) displayed,
a cancellation request landing between the checkpoints `"Starting the
plot"` and `"Drawing plot onto the canvas"` (index 4) aborts the run with
a `WorkingException`, yet the plot window state has changed: the figure is
already cleared and the new plot object already stored, so the previous
plot window state is not left unchanged. -/
theorem plot_abort_changes_window :
    (runSingleSlicePlot ⟨some 0, some 0, some 0⟩ 1 (some 4)).1 ≠
      (⟨some 0, some 0, some 0⟩ : PlotWindowState) ∧
    (runSingleSlicePlot ⟨some 0, some 0, some 0⟩ 1 (some 4)).1 =
      (⟨some 1, none, some 0⟩ : PlotWindowState) ∧
    (runSingleSlicePlot ⟨some 0, some 0, some 0⟩ 1 (some 4)).2.toOption = none := by
  refine ⟨?_, ?_, ?_⟩ <;> decide

/-- Claim C4 (amended): an aborted slice-plot run leaves the previously
displayed plot window state unchanged exactly when the abort takes effect
at one of the checkpoints up to and including `"Starting the plot"`
(indices 0-3); a cancellation effective at the `"Drawing plot onto the
canvas"` checkpoint (index 4) leaves the figure cleared with the new plot
reference stored but nothing new drawn, and one effective at `"Finishing"`
(index 5) leaves the new plot fully drawn; an uncancelled run completes.
No rollback or recovery is attempted in any case. -/
theorem plot_abort_window_state (win : PlotWindowState) (p : Nat) (c : Nat) :
    (c ≤ 3 →
      (runSingleSlicePlot win p (some c)).1 = win ∧
      (runSingleSlicePlot win p (some c)).2.toOption = none) ∧
    (c = 4 →
      (runSingleSlicePlot win p (some c)).1 =
        { win with plotRef := some p, figure := none } ∧
      (runSingleSlicePlot win p (some c)).2.toOption = none) ∧
    (c = 5 →
      (runSingleSlicePlot win p (some c)).1 = ⟨some p, some p, some p⟩ ∧
      (runSingleSlicePlot win p (some c)).2.toOption = none) ∧
    (6 ≤ c →
      (runSingleSlicePlot win p (some c)).1 = ⟨some p, some p, some p⟩ ∧
      ∃ w, (runSingleSlicePlot win p (some c)).2 = Except.ok w) := by
  refine ⟨?_, ?_, ?_, ?_⟩
  · intro hc
    interval_cases c <;>
      simp [runSingleSlicePlot, singleSlicePlotSteps, execSteps, emitStatus,
        applyCancel, initWorker, Except.toOption]
  · rintro rfl
    simp [runSingleSlicePlot, singleSlicePlotSteps, execSteps, emitStatus,
      applyCancel, initWorker, Except.toOption]
  · rintro rfl
    simp [runSingleSlicePlot, singleSlicePlotSteps, execSteps, emitStatus,
      applyCancel, initWorker, Except.toOption]
  · intro hc
    have h0 : ¬ (c ≤ 0) := by omega
    have h1 : ¬ (c ≤ 1) := by omega
    have h2 : ¬ (c ≤ 2) := by omega
    have h3 : ¬ (c ≤ 3) := by omega
    have h4 : ¬ (c ≤ 4) := by omega
    have h5 : ¬ (c ≤ 5) := by omega
    simp [runSingleSlicePlot, singleSlicePlotSteps, execSteps, emitStatus,
      applyCancel, initWorker, h0, h1, h2, h3, h4, h5]

/-- Witness for the amended C4: cancelling before checkpoint 2 leaves a
concrete window untouched. -/
theorem plot_abort_window_state_witness :
    (runSingleSlicePlot ⟨some 7, some 7, some 7⟩ 9 (some 2)).1 =
      (⟨some 7, some 7, some 7⟩ : PlotWindowState) ∧
    (runSingleSlicePlot ⟨some 7, some 7, some 7⟩ 9 (some 2)).2.toOption = none := by
  have h := (plot_abort_window_state ⟨some 7, some 7, some 7⟩ 9 2).1 (by decide)
  exact h

/-- On the index list `range' k n` with the counter also starting at `k`,
the loop keeps exactly the indices divisible by `onlyEvery` and names each
frame after the index it plots. -/
theorem evalMultiGo_range (onlyEvery : Nat) (makeMovie : Bool)
    (directory mode : String) :
    ∀ (n k : Nat),
      evalMultiGo onlyEvery makeMovie directory mode (List.range' k n) k =
        ((List.range' k n).filter (fun j => j % onlyEvery == 0),
         if makeMovie then
           ((List.range' k n).filter (fun j => j % onlyEvery == 0)).map
             (frameName directory mode)
         else []) := by
  intro n
  induction n with
  | zero => intro k; cases makeMovie <;> rfl
  | succ m ih =>
    intro k
    rw [List.range'_succ]
    by_cases hk : k % onlyEvery = 0
    · cases makeMovie <;>
        simp [evalMultiGo, hk, ih (k + 1), List.filter_cons]
    · cases makeMovie <;>
        simp [evalMultiGo, hk, ih (k + 1), List.filter_cons]

/-- Claim C5: over a series of `Length` datasets with stride `OnlyEvery`,
`evaluateMultiple` produces one plot for exactly the dataset indices
`j < Length` divisible by `OnlyEvery`, in increasing index order, and with
`MakeMovie` set it saves exactly one image per produced plot, named
`{mode}plot_{j+1}` inside the chosen directory. (The hypothesis
`0 < OnlyEvery` restricts the statement to the domain where the Python
modulo operation is defined.) -/
theorem evaluateMultiple_spec (seriesLength onlyEvery : Nat) (makeMovie : Bool)
    (directory mode : String) (_honly : 0 < onlyEvery) :
    (evaluateMultiple seriesLength onlyEvery makeMovie directory mode).1 =
      (List.range seriesLength).filter (fun j => j % onlyEvery == 0) ∧
    List.Pairwise (· < ·)
      (evaluateMultiple seriesLength onlyEvery makeMovie directory mode).1 ∧
    (makeMovie = true →
      (evaluateMultiple seriesLength onlyEvery makeMovie directory mode).2 =
        ((List.range seriesLength).filter (fun j => j % onlyEvery == 0)).map
          (fun j => directory ++ "/" ++ mode ++ "plot_" ++ toString (j + 1))) ∧
    (makeMovie = false →
      (evaluateMultiple seriesLength onlyEvery makeMovie directory mode).2 = []) := by
  have key := evalMultiGo_range onlyEvery makeMovie directory mode seriesLength 0
  rw [← List.range_eq_range'] at key
  have h1 : (evaluateMultiple seriesLength onlyEvery makeMovie directory mode).1 =
      (List.range seriesLength).filter (fun j => j % onlyEvery == 0) := by
    rw [evaluateMultiple, key]
  refine ⟨h1, ?_, ?_, ?_⟩
  · rw [h1]
    exact (List.pairwise_lt_range seriesLength).filter _
  · rintro rfl
    rw [evaluateMultiple, key]
    simp [frameName]
  · rintro rfl
    rw [evaluateMultiple, key]
    simp

/-- Witness for C5 with five datasets and stride two. -/
theorem evaluateMultiple_spec_witness :
    0 < 2 ∧ (evaluateMultiple 5 2 true "d" "Slice").1 = [0, 2, 4] ∧
    (evaluateMultiple 5 2 true "d" "Slice").2 =
      ["d/Sliceplot_1", "d/Sliceplot_3", "d/Sliceplot_5"] := by
  have h := evaluateMultiple_spec 5 2 true "d" "Slice" (by decide)
  refine ⟨by decide, ?_, ?_⟩
  · rw [h.1]; decide
  · rw [h.2.2.1 rfl]; decide

/-- Claim C3: when the external load raises `YTOutputNotIdentified` for
the selected file (or series name), the loader alerts the user and
re-prompts, repeating until a load succeeds or the user cancels; a
cancelled dialog ends the attempt with only a warning; other exceptions
are not caught by this path. -/
theorem load_retry_spec (load : String → LoadOutcome) :
    (∀ inputs, testValidFile load ("" :: inputs) = LoadResult.cancelled) ∧
    (∀ f inputs, f ≠ "" → load f = LoadOutcome.ok →
      testValidFile load (f :: inputs) = LoadResult.loaded f) ∧
    (∀ f inputs, f ≠ "" → load f = LoadOutcome.notIdentified →
      testValidFile load (f :: inputs) = testValidFile load inputs) ∧
    (∀ f e inputs, f ≠ "" → load f = LoadOutcome.otherError e →
      testValidFile load (f :: inputs) = LoadResult.raised e) ∧
    (∀ inputs, (∀ f ∈ inputs, load f = LoadOutcome.notIdentified) →
      testValidFile load inputs = LoadResult.cancelled) ∧
    (∀ rest, loadSeries load (none :: rest) = LoadResult.cancelled) ∧
    (∀ name rest, load name = LoadOutcome.ok →
      loadSeries load (some name :: rest) = LoadResult.loaded name) ∧
    (∀ name rest, load name = LoadOutcome.notIdentified →
      loadSeries load (some name :: rest) = loadSeries load rest) ∧
    (∀ name e rest, load name = LoadOutcome.otherError e →
      loadSeries load (some name :: rest) = LoadResult.raised e) := by
  refine ⟨?_, ?_, ?_, ?_, ?_, ?_, ?_, ?_, ?_⟩
  · intro inputs; simp [testValidFile]
  · intro f inputs hf h; simp [testValidFile, hf, h]
  · intro f inputs hf h; simp [testValidFile, hf, h]
  · intro f e inputs hf h; simp [testValidFile, hf, h]
  · intro inputs
    induction inputs with
    | nil => intro _; rfl
    | cons f rest ih =>
      intro h
      by_cases hf : f = ""
      · simp [testValidFile, hf]
      · have h1 : load f = LoadOutcome.notIdentified := h f (by simp)
        have h2 := ih (fun g hg => h g (List.mem_cons_of_mem f hg))
        simp [testValidFile, hf, h1, h2]
  · intro rest; rfl
  · intro name rest h; simp [loadSeries, h]
  · intro name rest h; simp [loadSeries, h]
  · intro name e rest h; simp [loadSeries, h]

/-- A concrete load function for the C3 witness: only `"good"` loads. -/
def sampleLoad : String → LoadOutcome :=
  fun s => if s = "good" then LoadOutcome.ok else LoadOutcome.notIdentified

/-- Witness for C3: a failed attempt followed by a successful retry. -/
theorem load_retry_spec_witness :
    testValidFile sampleLoad ["bad", "good"] = LoadResult.loaded "good" := by
  have h := load_retry_spec sampleLoad
  rw [h.2.2.1 "bad" ["good"] (by decide) (by decide),
    h.2.1 "good" [] (by decide) (by decide)]

/-- Claim C2: every exception raised inside a worker plot entry point is
caught: a `WorkingException` is logged as an error, any other exception
gets its traceback printed, is logged, and clears `_isRunning`; in all
cases exactly one `finished` signal is emitted (carrying `False` after a
generic failure) and nothing is re-raised. -/
theorem worker_plot_exception_handling (outcome : EvalOutcome) :
    (workerPlot outcome).escaped = none ∧
    (workerPlot outcome).finishedEmits.length = 1 ∧
    (∀ w msg, outcome = EvalOutcome.workingExc w msg →
      LogEvent.errorLog msg ∈ (workerPlot outcome).logs ∧
      (workerPlot outcome).finishedEmits = [w.isRunning]) ∧
    (∀ w ty msg, outcome = EvalOutcome.otherExc w ty msg →
      LogEvent.tracebackPrint ∈ (workerPlot outcome).logs ∧
      (workerPlot outcome).finalRunning = false ∧
      (workerPlot outcome).finishedEmits = [false]) ∧
    (∀ w, outcome = EvalOutcome.success w →
      (workerPlot outcome).finishedEmits = [w.isRunning]) := by
  cases outcome <;> simp [workerPlot]

/-- Witness for C2 on a concrete generic failure. -/
theorem worker_plot_exception_handling_witness :
    (workerPlot (EvalOutcome.otherExc initWorker "ValueError" "boom")).escaped = none ∧
    (workerPlot (EvalOutcome.otherExc initWorker "ValueError" "boom")).finishedEmits
      = [false] := by
  have h := worker_plot_exception_handling
    (EvalOutcome.otherExc initWorker "ValueError" "boom")
  exact ⟨h.1, (h.2.2.2.1 initWorker "ValueError" "boom" rfl).2.2⟩

/-- A single shuffle is a permutation of the triple. -/
theorem rotOnce_perm {α : Type} (xs : List α) : (rotOnce xs).Perm xs := by
  have h : (xs.drop 1 ++ xs.take 1).Perm (xs.take 1 ++ xs.drop 1) :=
    List.perm_append_comm
  rw [List.take_append_drop] at h
  exact h

/-- Claim C10: `mean` returns 0 for the empty list, and for every non-empty
list it returns the sum of the entries divided by the number of entries. -/
theorem mean_spec :
    mean [] = 0 ∧ ∀ xs : List ℚ, xs ≠ [] → mean xs = xs.sum / xs.length := by
  refine ⟨rfl, fun xs h => ?_⟩
  have hlen : xs.length ≠ 0 := by simpa using h
  simp [mean, hlen]

/-- Witness for C10 at the concrete list `[2, 4]`. -/
theorem mean_spec_witness :
    ([(2 : ℚ), 4] ≠ []) ∧ mean [(2 : ℚ), 4] = [(2 : ℚ), 4].sum / [(2 : ℚ), 4].length :=
  ⟨by decide, mean_spec.2 [(2 : ℚ), 4] (by decide)⟩

/-- Claim C7: checkbox defaults are stored as `"yes"`/`"no"` and the INI
boolean getter restores exactly the original boolean. -/
theorem checkbox_roundtrip :
    ∀ b : Bool, getboolean (getStateInput b) = some b := by
  decide

/-- A cyclic triple shuffled once: `[b, c, a]` is a permutation of `[a, b, c]`. -/
theorem perm_rot1 {α : Type} (a b c : α) : ([b, c, a] : List α).Perm [a, b, c] := by
  have h := rotOnce_perm ([a, b, c] : List α)
  simpa [rotOnce] using h

/-- A cyclic triple shuffled twice: `[c, a, b]` is a permutation of `[a, b, c]`. -/
theorem perm_rot2 {α : Type} (a b c : α) : ([c, a, b] : List α).Perm [a, b, c] := by
  have h := (rotOnce_perm (rotOnce ([a, b, c] : List α))).trans
    (rotOnce_perm ([a, b, c] : List α))
  simpa [rotOnce] using h

/-- Unfolding `shuffleCoords` when `NAxis` is `"x"`: both triples are
shuffled twice. -/
theorem shuffleCoords_eq_x (d : String → PyVal) (hx : d "NAxis" = PyVal.str "x") :
    shuffleCoords d =
      writeBack (writeBack d startKeys [d "ZLStart", d "XLStart", d "YLStart"])
        endKeys [d "ZLEnd", d "XLEnd", d "YLEnd"] := by
  simp [shuffleCoords, hx, startKeys, endKeys, rotOnce]

/-- Unfolding `shuffleCoords` when `NAxis` is `"y"`: both triples are
shuffled once. -/
theorem shuffleCoords_eq_y (d : String → PyVal)
    (hy : d "NAxis" = PyVal.str "y") :
    shuffleCoords d =
      writeBack (writeBack d startKeys [d "YLStart", d "ZLStart", d "XLStart"])
        endKeys [d "YLEnd", d "ZLEnd", d "XLEnd"] := by
  simp [shuffleCoords, hy, startKeys, endKeys, rotOnce]

/-- Unfolding `shuffleCoords` in the remaining cases: the original values
are written back. -/
theorem shuffleCoords_eq_other (d : String → PyVal) (hx : d "NAxis" ≠ PyVal.str "x")
    (hy : d "NAxis" ≠ PyVal.str "y") :
    shuffleCoords d =
      writeBack (writeBack d startKeys [d "XLStart", d "YLStart", d "ZLStart"])
        endKeys [d "XLEnd", d "YLEnd", d "ZLEnd"] := by
  simp [shuffleCoords, hx, hy, startKeys, endKeys, rotOnce]

/-- Writing the six stored values back to their own keys leaves the whole
store unchanged. -/
theorem writeBack_self (d : String → PyVal) :
    writeBack (writeBack d startKeys [d "XLStart", d "YLStart", d "ZLStart"])
        endKeys [d "XLEnd", d "YLEnd", d "ZLEnd"] = d := by
  funext k
  simp only [startKeys, endKeys, writeBack, setKey]
  split_ifs with h₁ h₂ h₃ h₄ h₅ h₆ <;> simp_all

/-- Claim C9: `shuffleCoords` rotates the start triple and the end triple in
the same cyclic way (twice for `NAxis = "x"`, once for `"y"`, not at all
otherwise), preserves the multiset of each triple, and modifies no other
key of the store. -/
theorem shuffleCoords_spec (d : String → PyVal) :
    (d "NAxis" = PyVal.str "x" →
      shuffleCoords d "XLStart" = d "ZLStart" ∧
      shuffleCoords d "YLStart" = d "XLStart" ∧
      shuffleCoords d "ZLStart" = d "YLStart" ∧
      shuffleCoords d "XLEnd" = d "ZLEnd" ∧
      shuffleCoords d "YLEnd" = d "XLEnd" ∧
      shuffleCoords d "ZLEnd" = d "YLEnd") ∧
    (d "NAxis" = PyVal.str "y" →
      shuffleCoords d "XLStart" = d "YLStart" ∧
      shuffleCoords d "YLStart" = d "ZLStart" ∧
      shuffleCoords d "ZLStart" = d "XLStart" ∧
      shuffleCoords d "XLEnd" = d "YLEnd" ∧
      shuffleCoords d "YLEnd" = d "ZLEnd" ∧
      shuffleCoords d "ZLEnd" = d "XLEnd") ∧
    (d "NAxis" ≠ PyVal.str "x" → d "NAxis" ≠ PyVal.str "y" →
      shuffleCoords d = d) ∧
    (([shuffleCoords d "XLStart", shuffleCoords d "YLStart",
        shuffleCoords d "ZLStart"] : Multiset PyVal) =
      ([d "XLStart", d "YLStart", d "ZLStart"] : Multiset PyVal)) ∧
    (([shuffleCoords d "XLEnd", shuffleCoords d "YLEnd",
        shuffleCoords d "ZLEnd"] : Multiset PyVal) =
      ([d "XLEnd", d "YLEnd", d "ZLEnd"] : Multiset PyVal)) ∧
    (∀ k : String, k ∉ startKeys → k ∉ endKeys → shuffleCoords d k = d k) := by
  by_cases hx : d "NAxis" = PyVal.str "x"
  · have he := shuffleCoords_eq_x d hx
    have hvals : shuffleCoords d "XLStart" = d "ZLStart" ∧
        shuffleCoords d "YLStart" = d "XLStart" ∧
        shuffleCoords d "ZLStart" = d "YLStart" ∧
        shuffleCoords d "XLEnd" = d "ZLEnd" ∧
        shuffleCoords d "YLEnd" = d "XLEnd" ∧
        shuffleCoords d "ZLEnd" = d "YLEnd" := by
      rw [he]
      refine ⟨?_, ?_, ?_, ?_, ?_, ?_⟩ <;> simp [startKeys, endKeys, writeBack, setKey]
    obtain ⟨e₁, e₂, e₃, e₄, e₅, e₆⟩ := hvals
    refine ⟨fun _ => ⟨e₁, e₂, e₃, e₄, e₅, e₆⟩, fun hy => absurd hx (by simp [hy]), ?_, ?_, ?_, ?_⟩
    · intro hx2 _; exact absurd hx hx2
    · rw [e₁, e₂, e₃]
      exact Multiset.coe_eq_coe.mpr (perm_rot2 _ _ _)
    · rw [e₄, e₅, e₆]
      exact Multiset.coe_eq_coe.mpr (perm_rot2 _ _ _)
    · intro k hks hke
      rw [he]
      simp only [startKeys, endKeys, List.mem_cons, List.not_mem_nil] at hks hke
      push_neg at hks hke
      simp [startKeys, endKeys, writeBack, setKey, hks.1, hks.2.1, hks.2.2.1,
        hke.1, hke.2.1, hke.2.2.1]
  · by_cases hy : d "NAxis" = PyVal.str "y"
    · have he := shuffleCoords_eq_y d hy
      have hvals : shuffleCoords d "XLStart" = d "YLStart" ∧
          shuffleCoords d "YLStart" = d "ZLStart" ∧
          shuffleCoords d "ZLStart" = d "XLStart" ∧
          shuffleCoords d "XLEnd" = d "YLEnd" ∧
          shuffleCoords d "YLEnd" = d "ZLEnd" ∧
          shuffleCoords d "ZLEnd" = d "XLEnd" := by
        rw [he]
        refine ⟨?_, ?_, ?_, ?_, ?_, ?_⟩ <;> simp [startKeys, endKeys, writeBack, setKey]
      obtain ⟨e₁, e₂, e₃, e₄, e₅, e₆⟩ := hvals
      refine ⟨fun hx2 => absurd hx2 hx, fun _ => ⟨e₁, e₂, e₃, e₄, e₅, e₆⟩, ?_, ?_, ?_, ?_⟩
      · intro _ hy2; exact absurd hy hy2
      · rw [e₁, e₂, e₃]
        exact Multiset.coe_eq_coe.mpr (perm_rot1 _ _ _)
      · rw [e₄, e₅, e₆]
        exact Multiset.coe_eq_coe.mpr (perm_rot1 _ _ _)
      · intro k hks hke
        rw [he]
        simp only [startKeys, endKeys, List.mem_cons, List.not_mem_nil] at hks hke
        push_neg at hks hke
        simp [startKeys, endKeys, writeBack, setKey, hks.1, hks.2.1, hks.2.2.1,
          hke.1, hke.2.1, hke.2.2.1]
    · have he : shuffleCoords d = d :=
        (shuffleCoords_eq_other d hx hy).trans (writeBack_self d)
      refine ⟨fun hx2 => absurd hx2 hx, fun hy2 => absurd hy2 hy,
        fun _ _ => he, ?_, ?_, fun k _ _ => by rw [he]⟩ <;> rw [he]

/-- A concrete parameter store used to witness the shuffle behaviour. -/
def sampleStore : String → PyVal :=
  fun k =>
    if k = "NAxis" then PyVal.str "x"
    else if k = "XLStart" then PyVal.num 1
    else if k = "YLStart" then PyVal.num 2
    else if k = "ZLStart" then PyVal.num 3
    else if k = "XLEnd" then PyVal.num 4
    else if k = "YLEnd" then PyVal.num 5
    else if k = "ZLEnd" then PyVal.num 6
    else PyVal.num 0

/-- Witness for C9 on a concrete store with `NAxis = "x"`. -/
theorem shuffleCoords_spec_witness :
    sampleStore "NAxis" = PyVal.str "x" ∧
    shuffleCoords sampleStore "XLStart" = sampleStore "ZLStart" ∧
    "GridUnit" ∉ startKeys ∧ "GridUnit" ∉ endKeys ∧
    shuffleCoords sampleStore "GridUnit" = sampleStore "GridUnit" := by
  have h := shuffleCoords_spec sampleStore
  exact ⟨rfl, (h.1 rfl).1, by decide, by decide,
    h.2.2.2.2.2 "GridUnit" (by decide) (by decide)⟩

end GUFY
